import Mathlib

/-!
Shallow embedding of `src/first_person.rs` from dylanmckay/fps-camera.

The Rust code is generic over a float type `T : Float + Radians`; we embed
the arithmetic over the real numbers `ℝ`.  `Radians::_180()` is `π`,
`T::from_isize(360)` is `360`, and the Rust `%` operator on floats is the
truncating remainder (sign of the dividend), modelled by `rustRem` below.
The `Actions` bitflags (a `u8` bitmask) are modelled as `Nat` bitmasks with
the bitflags semantics for `contains`, `|=`, `&= !`.
-/

/-- Rust float truncating division: the integer quotient rounded toward zero. -/
noncomputable def truncQuot (r : ℝ) : ℤ :=
  if 0 ≤ r then ⌊r⌋ else ⌈r⌉

/-- Rust `%` on floats: remainder of truncating division, `x - y * trunc (x / y)`.
The result carries the sign of the dividend `x`, unlike a floor-mod. -/
noncomputable def rustRem (x y : ℝ) : ℝ :=
  x - y * (truncQuot (x / y) : ℝ)

/-- `bitflags!` constant `MOVE_FORWARD = 0b00000001`. -/
def Actions.MOVE_FORWARD : Nat := 0b00000001

/-- `bitflags!` constant `MOVE_BACKWARD = 0b00000010`. -/
def Actions.MOVE_BACKWARD : Nat := 0b00000010

/-- `bitflags!` constant `STRAFE_LEFT = 0b00000100`. -/
def Actions.STRAFE_LEFT : Nat := 0b00000100

/-- `bitflags!` constant `STRAFE_RIGHT = 0b00001000`. -/
def Actions.STRAFE_RIGHT : Nat := 0b00001000

/-- `bitflags!` constant `FLY_UP = 0b00010000`. -/
def Actions.FLY_UP : Nat := 0b00010000

/-- `bitflags!` constant `FLY_DOWN = 0b00100000`. -/
def Actions.FLY_DOWN : Nat := 0b00100000

/-- `bitflags!` constant `MOVE_FASTER = 0b01000000`. -/
def Actions.MOVE_FASTER : Nat := 0b01000000

/-- The union of all declared flag bits (`Actions::all()` in bitflags). -/
def Actions.ALL : Nat := 0b01111111

/-- The seven declared single flags, in declaration order. -/
def Actions.flagList : List Nat :=
  [Actions.MOVE_FORWARD, Actions.MOVE_BACKWARD, Actions.STRAFE_LEFT,
   Actions.STRAFE_RIGHT, Actions.FLY_UP, Actions.FLY_DOWN, Actions.MOVE_FASTER]

/-- `Actions::empty()`. -/
def Actions.emptyMask : Nat := 0

/-- bitflags `self.contains(other)`: `self.bits & other.bits == other.bits`. -/
def Actions.contains (self other : Nat) : Bool :=
  self &&& other == other

/-- bitflags `!a`: complement truncated to the declared bits (`!bits & all`). -/
def Actions.negMask (a : Nat) : Nat :=
  Actions.ALL ^^^ (a &&& Actions.ALL)

/-- `FirstPersonSettings<T>`: the four tunable scalars. -/
structure FirstPersonSettings where
  speed_horizontal : ℝ
  speed_vertical : ℝ
  mouse_sensitivity_horizontal : ℝ
  mouse_sensitivity_vertical : ℝ

/-- `FirstPersonSettings::default()`: all fields one. -/
def FirstPersonSettings.wasd : FirstPersonSettings :=
  { speed_horizontal := 1
    speed_vertical := 1
    mouse_sensitivity_horizontal := 1
    mouse_sensitivity_vertical := 1 }

/-- Modelled from the spec: the external `Camera` type is not under `src/`;
per §6 the core only needs from it a constructor taking a 3-component world
position and a mutator accepting `(yaw, pitch)` in radians, so it is the
record of those three components. -/
structure Camera where
  position : ℝ × ℝ × ℝ
  yaw : ℝ
  pitch : ℝ

/-- Modelled from the spec: `Camera::new(position)`, the pose constructor
taking a 3-component world position (orientation initially zero, always
overwritten via `set_yaw_pitch` before use in this core). -/
def Camera.new (p : ℝ × ℝ × ℝ) : Camera :=
  { position := p, yaw := 0, pitch := 0 }

/-- Modelled from the spec: `Camera::set_yaw_pitch(yaw, pitch)`, the mutator
accepting yaw and pitch in radians. -/
def Camera.set_yaw_pitch (c : Camera) (yaw pitch : ℝ) : Camera :=
  { c with yaw := yaw, pitch := pitch }

/-- `FirstPerson<T>`: the aggregate camera state. -/
structure FirstPerson where
  settings : FirstPersonSettings
  yaw : ℝ
  pitch : ℝ
  position : ℝ × ℝ × ℝ
  velocity : ℝ
  actions : Nat

/-- `FirstPerson::new(position, settings)`. -/
def FirstPerson.new (position : ℝ × ℝ × ℝ) (settings : FirstPersonSettings) :
    FirstPerson :=
  { settings := settings
    yaw := 0
    pitch := 0
    position := position
    velocity := 1
    actions := Actions.emptyMask }

/-- The closure `set_axis` in `movement_direction`, run on the initial value 0:
both flags → 0, positive only → 1, negative only → -1, neither → untouched 0. -/
def axisValue (positive negative : Bool) : ℝ :=
  if positive && negative then 0
  else if positive then 1
  else if negative then -1
  else 0

/-- `FirstPerson::movement_direction`, returning `(dx, dy, dz)`. -/
def FirstPerson.movement_direction (fp : FirstPerson) : ℝ × ℝ × ℝ :=
  (axisValue (Actions.contains fp.actions Actions.STRAFE_LEFT)
             (Actions.contains fp.actions Actions.STRAFE_RIGHT),
   axisValue (Actions.contains fp.actions Actions.FLY_UP)
             (Actions.contains fp.actions Actions.FLY_DOWN),
   axisValue (Actions.contains fp.actions Actions.MOVE_FORWARD)
             (Actions.contains fp.actions Actions.MOVE_BACKWARD))

/-- `FirstPerson::camera(dt)`: derive the instantaneous pose. -/
noncomputable def FirstPerson.camera (fp : FirstPerson) (dt : ℝ) : Camera :=
  let dh := dt * fp.velocity * fp.settings.speed_horizontal
  let d := fp.movement_direction
  let s := Real.sin fp.yaw
  let c := Real.cos fp.yaw
  (Camera.new
    (fp.position.1 + (s * d.1 - c * d.2.2) * dh,
     fp.position.2.1 + d.2.1 * dt * fp.settings.speed_vertical,
     fp.position.2.2 + (s * d.2.2 + c * d.1) * dh)).set_yaw_pitch fp.yaw fp.pitch

/-- `FirstPerson::update(dt)`: overwrite `position` with the derived pose's. -/
noncomputable def FirstPerson.update (fp : FirstPerson) (dt : ℝ) : FirstPerson :=
  { fp with position := (fp.camera dt).position }

/-- `FirstPerson::update_mouse(relative_dx, relative_dy)`. -/
noncomputable def FirstPerson.update_mouse (fp : FirstPerson)
    (relative_dx relative_dy : ℝ) : FirstPerson :=
  let dx := relative_dx * fp.settings.mouse_sensitivity_horizontal
  let dy := relative_dy * fp.settings.mouse_sensitivity_vertical
  let yaw' := rustRem (fp.yaw - dx / 360 * Real.pi / 4) (2 * Real.pi)
  let pitch' := fp.pitch + dy / 360 * Real.pi / 4
  let pitch'' := max (min pitch' (Real.pi / 2)) (-(Real.pi / 2))
  { fp with yaw := yaw', pitch := pitch'' }

/-- `FirstPerson::enable_actions(actions)`: `self.actions |= actions`. -/
def FirstPerson.enable_actions (fp : FirstPerson) (actions : Nat) : FirstPerson :=
  { fp with actions := fp.actions ||| actions }

/-- `FirstPerson::disable_action(action)`: `self.actions &= !action`. -/
def FirstPerson.disable_action (fp : FirstPerson) (action : Nat) : FirstPerson :=
  { fp with actions := fp.actions &&& Actions.negMask action }

/-- One host-visible operation on the camera state. -/
inductive Op where
  | update (dt : ℝ)
  | updateMouse (relative_dx relative_dy : ℝ)
  | enable (a : Nat)
  | disable (a : Nat)

/-- Apply one operation to a state. -/
noncomputable def stepOp (fp : FirstPerson) : Op → FirstPerson
  | Op.update dt => fp.update dt
  | Op.updateMouse ddx ddy => fp.update_mouse ddx ddy
  | Op.enable a => fp.enable_actions a
  | Op.disable a => fp.disable_action a

/-- Run a sequence of operations from a state. -/
noncomputable def runOps (fp : FirstPerson) (ops : List Op) : FirstPerson :=
  ops.foldl stepOp fp

/-- `rustRem x y` differs from `x` by an integer multiple of `y`. -/
theorem rustRem_sub_int_mul (x y : ℝ) : ∃ k : ℤ, rustRem x y = x - y * k :=
  ⟨truncQuot (x / y), rfl⟩

/-- Claim C3: for every camera state and every `dt`, the pose computed by
`camera(dt)` has position equal to the old position plus
`(sin(yaw)*dx*dh - cos(yaw)*dz*dh, dy*dt*speed_vertical, sin(yaw)*dz*dh + cos(yaw)*dx*dh)`,
where `(dx, dy, dz) = movement_direction()` and
`dh = dt * velocity * speed_horizontal`, and carries the current (unchanged)
yaw and pitch. -/
theorem camera_pose_formula (fp : FirstPerson) (dt : ℝ) :
    (fp.camera dt).position =
      (fp.position.1
         + (Real.sin fp.yaw * fp.movement_direction.1
              * (dt * fp.velocity * fp.settings.speed_horizontal)
            - Real.cos fp.yaw * fp.movement_direction.2.2
              * (dt * fp.velocity * fp.settings.speed_horizontal)),
       fp.position.2.1 + fp.movement_direction.2.1 * dt * fp.settings.speed_vertical,
       fp.position.2.2
         + (Real.sin fp.yaw * fp.movement_direction.2.2
              * (dt * fp.velocity * fp.settings.speed_horizontal)
            + Real.cos fp.yaw * fp.movement_direction.1
              * (dt * fp.velocity * fp.settings.speed_horizontal)))
    ∧ (fp.camera dt).yaw = fp.yaw ∧ (fp.camera dt).pitch = fp.pitch := by
  refine ⟨?_, rfl, rfl⟩
  simp only [FirstPerson.camera, Camera.new, Camera.set_yaw_pitch, Prod.mk.injEq]
  exact ⟨by ring, trivial, by ring⟩

/-- Claim C6: `update_mouse` changes yaw by subtracting
`(relative_dx * mouse_sensitivity_horizontal / 360) * (π/4)` radians, then
reducing modulo `2π` (Rust `%`, so the result differs from the intermediate by
an integer multiple of `2π`), and changes pitch by adding
`(relative_dy * mouse_sensitivity_vertical / 360) * (π/4)` radians, then
clamping to `[-π/2, π/2]`. -/
theorem update_mouse_scaling (fp : FirstPerson) (relative_dx relative_dy : ℝ) :
    (fp.update_mouse relative_dx relative_dy).yaw
        = rustRem
            (fp.yaw - relative_dx * fp.settings.mouse_sensitivity_horizontal / 360
               * (Real.pi / 4))
            (2 * Real.pi)
    ∧ (∃ k : ℤ,
        (fp.update_mouse relative_dx relative_dy).yaw
          = fp.yaw - relative_dx * fp.settings.mouse_sensitivity_horizontal / 360
               * (Real.pi / 4) - 2 * Real.pi * k)
    ∧ (fp.update_mouse relative_dx relative_dy).pitch
        = max (min (fp.pitch + relative_dy * fp.settings.mouse_sensitivity_vertical / 360
               * (Real.pi / 4)) (Real.pi / 2)) (-(Real.pi / 2)) := by
  have harg : fp.yaw - relative_dx * fp.settings.mouse_sensitivity_horizontal / 360
        * Real.pi / 4
      = fp.yaw - relative_dx * fp.settings.mouse_sensitivity_horizontal / 360
        * (Real.pi / 4) := by ring
  have hyaw : (fp.update_mouse relative_dx relative_dy).yaw
      = rustRem
          (fp.yaw - relative_dx * fp.settings.mouse_sensitivity_horizontal / 360
             * (Real.pi / 4))
          (2 * Real.pi) := by
    simp only [FirstPerson.update_mouse]
    rw [harg]
  refine ⟨hyaw, ?_, ?_⟩
  · obtain ⟨k, hk⟩ := rustRem_sub_int_mul
      (fp.yaw - relative_dx * fp.settings.mouse_sensitivity_horizontal / 360
         * (Real.pi / 4)) (2 * Real.pi)
    exact ⟨k, by rw [hyaw, hk]⟩
  · simp only [FirstPerson.update_mouse]
    have hp : fp.pitch + relative_dy * fp.settings.mouse_sensitivity_vertical / 360
          * Real.pi / 4
        = fp.pitch + relative_dy * fp.settings.mouse_sensitivity_vertical / 360
          * (Real.pi / 4) := by ring
    rw [hp]

/-- Claim C7: `update(dt)` mutates only the position field; yaw, pitch,
velocity, settings and actions are unchanged. -/
theorem update_only_position (fp : FirstPerson) (dt : ℝ) :
    (fp.update dt).yaw = fp.yaw ∧ (fp.update dt).pitch = fp.pitch
    ∧ (fp.update dt).velocity = fp.velocity
    ∧ (fp.update dt).settings = fp.settings
    ∧ (fp.update dt).actions = fp.actions :=
  ⟨rfl, rfl, rfl, rfl, rfl⟩

/-- Per-case behaviour and range of the axis resolver `set_axis`. -/
theorem axisValue_spec (p n : Bool) :
    (p = true ∧ n = true → axisValue p n = 0)
    ∧ (p = true ∧ n = false → axisValue p n = 1)
    ∧ (p = false ∧ n = true → axisValue p n = -1)
    ∧ (p = false ∧ n = false → axisValue p n = 0)
    ∧ axisValue p n ∈ ({-1, 0, 1} : Set ℝ) := by
  cases p <;> cases n <;> simp [axisValue]

/-- Claim C5: `movement_direction()` resolves each axis independently — both
flags of an opposing pair give 0, only the positive flag gives 1, only the
negative flag gives -1, neither gives 0 — with pairs forward/backward on
local Z, strafe-left/strafe-right on local X, up/down on local Y; each
component is in `{-1, 0, 1}`, and the result is independent of the order in
which flags were enabled. -/
theorem movement_direction_resolution (fp : FirstPerson) :
    (Actions.contains fp.actions Actions.MOVE_FORWARD = true
       ∧ Actions.contains fp.actions Actions.MOVE_BACKWARD = true
       → fp.movement_direction.2.2 = 0)
    ∧ (Actions.contains fp.actions Actions.MOVE_FORWARD = true
       ∧ Actions.contains fp.actions Actions.MOVE_BACKWARD = false
       → fp.movement_direction.2.2 = 1)
    ∧ (Actions.contains fp.actions Actions.MOVE_FORWARD = false
       ∧ Actions.contains fp.actions Actions.MOVE_BACKWARD = true
       → fp.movement_direction.2.2 = -1)
    ∧ (Actions.contains fp.actions Actions.MOVE_FORWARD = false
       ∧ Actions.contains fp.actions Actions.MOVE_BACKWARD = false
       → fp.movement_direction.2.2 = 0)
    ∧ (Actions.contains fp.actions Actions.STRAFE_LEFT = true
       ∧ Actions.contains fp.actions Actions.STRAFE_RIGHT = true
       → fp.movement_direction.1 = 0)
    ∧ (Actions.contains fp.actions Actions.STRAFE_LEFT = true
       ∧ Actions.contains fp.actions Actions.STRAFE_RIGHT = false
       → fp.movement_direction.1 = 1)
    ∧ (Actions.contains fp.actions Actions.STRAFE_LEFT = false
       ∧ Actions.contains fp.actions Actions.STRAFE_RIGHT = true
       → fp.movement_direction.1 = -1)
    ∧ (Actions.contains fp.actions Actions.STRAFE_LEFT = false
       ∧ Actions.contains fp.actions Actions.STRAFE_RIGHT = false
       → fp.movement_direction.1 = 0)
    ∧ (Actions.contains fp.actions Actions.FLY_UP = true
       ∧ Actions.contains fp.actions Actions.FLY_DOWN = true
       → fp.movement_direction.2.1 = 0)
    ∧ (Actions.contains fp.actions Actions.FLY_UP = true
       ∧ Actions.contains fp.actions Actions.FLY_DOWN = false
       → fp.movement_direction.2.1 = 1)
    ∧ (Actions.contains fp.actions Actions.FLY_UP = false
       ∧ Actions.contains fp.actions Actions.FLY_DOWN = true
       → fp.movement_direction.2.1 = -1)
    ∧ (Actions.contains fp.actions Actions.FLY_UP = false
       ∧ Actions.contains fp.actions Actions.FLY_DOWN = false
       → fp.movement_direction.2.1 = 0)
    ∧ fp.movement_direction.1 ∈ ({-1, 0, 1} : Set ℝ)
    ∧ fp.movement_direction.2.1 ∈ ({-1, 0, 1} : Set ℝ)
    ∧ fp.movement_direction.2.2 ∈ ({-1, 0, 1} : Set ℝ)
    ∧ ∀ a b : Nat,
        ((fp.enable_actions a).enable_actions b).movement_direction
          = ((fp.enable_actions b).enable_actions a).movement_direction := by
  have hz := axisValue_spec (Actions.contains fp.actions Actions.MOVE_FORWARD)
    (Actions.contains fp.actions Actions.MOVE_BACKWARD)
  have hx := axisValue_spec (Actions.contains fp.actions Actions.STRAFE_LEFT)
    (Actions.contains fp.actions Actions.STRAFE_RIGHT)
  have hy := axisValue_spec (Actions.contains fp.actions Actions.FLY_UP)
    (Actions.contains fp.actions Actions.FLY_DOWN)
  refine ⟨hz.1, hz.2.1, hz.2.2.1, hz.2.2.2.1,
    hx.1, hx.2.1, hx.2.2.1, hx.2.2.2.1,
    hy.1, hy.2.1, hy.2.2.1, hy.2.2.2.1,
    hx.2.2.2.2, hy.2.2.2.2, hz.2.2.2.2, ?_⟩
  intro a b
  simp only [FirstPerson.enable_actions]
  rw [Nat.lor_assoc, Nat.lor_assoc, Nat.lor_comm a b]

/-- A state with both members of the forward/backward pair active. -/
def fpBothFB : FirstPerson :=
  { settings := FirstPersonSettings.wasd
    yaw := 0
    pitch := 0
    position := (0, 0, 0)
    velocity := 1
    actions := Actions.MOVE_FORWARD ||| Actions.MOVE_BACKWARD }

/-- Witness for C5: with forward and backward both active, the Z component of
`movement_direction` is 0. -/
theorem movement_direction_resolution_witness :
    fpBothFB.movement_direction.2.2 = 0 :=
  (movement_direction_resolution fpBothFB).1 ⟨by decide, by decide⟩

/-- With an empty actions bitmask, `movement_direction` is `(0, 0, 0)`. -/
theorem movement_direction_of_empty (fp : FirstPerson)
    (h : fp.actions = Actions.emptyMask) :
    fp.movement_direction = (0, 0, 0) := by
  have h1 : Actions.contains Actions.emptyMask Actions.MOVE_FORWARD = false := by decide
  have h2 : Actions.contains Actions.emptyMask Actions.MOVE_BACKWARD = false := by decide
  have h3 : Actions.contains Actions.emptyMask Actions.STRAFE_LEFT = false := by decide
  have h4 : Actions.contains Actions.emptyMask Actions.STRAFE_RIGHT = false := by decide
  have h5 : Actions.contains Actions.emptyMask Actions.FLY_UP = false := by decide
  have h6 : Actions.contains Actions.emptyMask Actions.FLY_DOWN = false := by decide
  simp [FirstPerson.movement_direction, h, h1, h2, h3, h4, h5, h6, axisValue]

/-- Claim C8: with an empty actions bitmask, `update(dt)` leaves the position
unchanged for every `dt`. -/
theorem update_empty_actions_fixes_position (fp : FirstPerson)
    (h : fp.actions = Actions.emptyMask) (dt : ℝ) :
    (fp.update dt).position = fp.position := by
  have hmd := movement_direction_of_empty fp h
  simp [FirstPerson.update, FirstPerson.camera, Camera.new, Camera.set_yaw_pitch, hmd]

/-- A freshly constructed camera at position `(1, 2, 3)`. -/
def fpEmpty : FirstPerson := FirstPerson.new (1, 2, 3) FirstPersonSettings.wasd

/-- Witness for C8: a fresh camera (empty actions) does not move under
`update(5)`. -/
theorem update_empty_actions_fixes_position_witness :
    (fpEmpty.update 5).position = fpEmpty.position :=
  update_empty_actions_fixes_position fpEmpty rfl 5

/-- With only `MOVE_FORWARD` active, `movement_direction` is `(0, 0, 1)`. -/
theorem movement_direction_of_forward (fp : FirstPerson)
    (h : fp.actions = Actions.MOVE_FORWARD) :
    fp.movement_direction = (0, 0, 1) := by
  have h1 : Actions.contains Actions.MOVE_FORWARD Actions.MOVE_FORWARD = true := by decide
  have h2 : Actions.contains Actions.MOVE_FORWARD Actions.MOVE_BACKWARD = false := by decide
  have h3 : Actions.contains Actions.MOVE_FORWARD Actions.STRAFE_LEFT = false := by decide
  have h4 : Actions.contains Actions.MOVE_FORWARD Actions.STRAFE_RIGHT = false := by decide
  have h5 : Actions.contains Actions.MOVE_FORWARD Actions.FLY_UP = false := by decide
  have h6 : Actions.contains Actions.MOVE_FORWARD Actions.FLY_DOWN = false := by decide
  simp [FirstPerson.movement_direction, h, h1, h2, h3, h4, h5, h6, axisValue]

/-- With only forward active, yaw 0, unit horizontal speed and velocity,
`update(1)` moves the position by `(-1, 0, 0)`: forward at yaw 0 points down
the negative world X axis in this code. -/
theorem update_forward_general (fp : FirstPerson)
    (hact : fp.actions = Actions.MOVE_FORWARD) (hyaw : fp.yaw = 0)
    (hsp : fp.settings.speed_horizontal = 1) (hvel : fp.velocity = 1) :
    (fp.update 1).position
      = (fp.position.1 - 1, fp.position.2.1, fp.position.2.2) := by
  have hmd := movement_direction_of_forward fp hact
  simp [FirstPerson.update, FirstPerson.camera, Camera.new, Camera.set_yaw_pitch,
    hmd, hyaw, hsp, hvel]
  ring

/-- A camera at the origin with only the forward flag active and all tunables
at their defaults. -/
def fpForward : FirstPerson :=
  { settings := FirstPersonSettings.wasd
    yaw := 0
    pitch := 0
    position := (0, 0, 0)
    velocity := 1
    actions := Actions.MOVE_FORWARD }

/-- Counterexample to C2: from the origin with only forward active, yaw 0,
unit speed and velocity, `update(1)` lands at `(-1, 0, 0)`, not at `(0, 0, 1)`
as the claim predicts. -/
theorem forward_motion_counterexample :
    (fpForward.update 1).position = ((-1 : ℝ), 0, 0)
    ∧ (fpForward.update 1).position ≠ ((0 : ℝ), 0, 1) := by
  have h := update_forward_general fpForward rfl rfl rfl rfl
  have hpos : fpForward.position = ((0 : ℝ), 0, 0) := rfl
  rw [hpos] at h
  norm_num at h
  refine ⟨h, ?_⟩
  rw [h]
  intro hcontra
  have : (-1 : ℝ) = 0 := congrArg Prod.fst hcontra
  norm_num at this

/-- Claim C2 (amended): for a camera with only the forward flag active,
yaw = 0, speed_horizontal = 1, velocity = 1, calling `update(1.0)` changes the
position by exactly `(-1, 0, 0)`: `position[1]` and `position[2]` are
unchanged and `position[0]` decreases by 1. -/
theorem update_forward_moves_negative_x (fp : FirstPerson)
    (hact : fp.actions = Actions.MOVE_FORWARD) (hyaw : fp.yaw = 0)
    (hsp : fp.settings.speed_horizontal = 1) (hvel : fp.velocity = 1) :
    (fp.update 1).position
      = (fp.position.1 - 1, fp.position.2.1, fp.position.2.2) :=
  update_forward_general fp hact hyaw hsp hvel

/-- Witness for the amended C2 at a concrete state. -/
theorem update_forward_moves_negative_x_witness :
    (fpForward.update 1).position
      = (fpForward.position.1 - 1, fpForward.position.2.1, fpForward.position.2.2) :=
  update_forward_moves_negative_x fpForward rfl rfl rfl rfl

/-- Projection of `update_mouse` on yaw. -/
theorem update_mouse_yaw (fp : FirstPerson) (relative_dx relative_dy : ℝ) :
    (fp.update_mouse relative_dx relative_dy).yaw
      = rustRem
          (fp.yaw - relative_dx * fp.settings.mouse_sensitivity_horizontal / 360
             * Real.pi / 4)
          (2 * Real.pi) := rfl

/-- Projection of `update_mouse` on pitch. -/
theorem update_mouse_pitch (fp : FirstPerson) (relative_dx relative_dy : ℝ) :
    (fp.update_mouse relative_dx relative_dy).pitch
      = max (min (fp.pitch + relative_dy * fp.settings.mouse_sensitivity_vertical / 360
             * Real.pi / 4) (Real.pi / 2)) (-(Real.pi / 2)) := rfl

/-- `update_mouse` does not change the settings. -/
theorem update_mouse_settings (fp : FirstPerson) (relative_dx relative_dy : ℝ) :
    (fp.update_mouse relative_dx relative_dy).settings = fp.settings := rfl

/-- For a positive modulus the truncating remainder lies strictly below it. -/
theorem rustRem_lt (x y : ℝ) (hy : 0 < y) : rustRem x y < y := by
  unfold rustRem truncQuot
  by_cases h : 0 ≤ x / y
  · rw [if_pos h]
    have h1 : x / y < ⌊x / y⌋ + 1 := Int.lt_floor_add_one _
    have h2 : x < ((⌊x / y⌋ : ℝ) + 1) * y := (div_lt_iff₀ hy).mp h1
    have h3 : ((⌊x / y⌋ : ℝ) + 1) * y = y * (⌊x / y⌋ : ℝ) + y := by ring
    rw [h3] at h2
    linarith
  · rw [if_neg h]
    have h1 : x / y ≤ (⌈x / y⌉ : ℝ) := Int.le_ceil _
    have h2 : x ≤ (⌈x / y⌉ : ℝ) * y := (div_le_iff₀ hy).mp h1
    have h3 : ((⌈x / y⌉ : ℝ)) * y = y * (⌈x / y⌉ : ℝ) := by ring
    rw [h3] at h2
    linarith

/-- For a positive modulus the truncating remainder lies strictly above the
negated modulus. -/
theorem neg_lt_rustRem (x y : ℝ) (hy : 0 < y) : -y < rustRem x y := by
  unfold rustRem truncQuot
  by_cases h : 0 ≤ x / y
  · rw [if_pos h]
    have h1 : (⌊x / y⌋ : ℝ) ≤ x / y := Int.floor_le _
    have h2 : (⌊x / y⌋ : ℝ) * y ≤ x := (le_div_iff₀ hy).mp h1
    have h3 : ((⌊x / y⌋ : ℝ)) * y = y * (⌊x / y⌋ : ℝ) := by ring
    rw [h3] at h2
    linarith
  · rw [if_neg h]
    have h1 : (⌈x / y⌉ : ℝ) < x / y + 1 := Int.ceil_lt_add_one _
    have h2 : (⌈x / y⌉ : ℝ) - 1 < x / y := by linarith
    have h3 : ((⌈x / y⌉ : ℝ) - 1) * y < x := (lt_div_iff₀ hy).mp h2
    have h4 : ((⌈x / y⌉ : ℝ) - 1) * y = y * (⌈x / y⌉ : ℝ) - y := by ring
    rw [h4] at h3
    linarith

/-- For a nonnegative dividend and a positive modulus the truncating
remainder is nonnegative. -/
theorem rustRem_nonneg (x y : ℝ) (hy : 0 < y) (hx : 0 ≤ x) : 0 ≤ rustRem x y := by
  unfold rustRem truncQuot
  rw [if_pos (div_nonneg hx hy.le)]
  have h1 : (⌊x / y⌋ : ℝ) ≤ x / y := Int.floor_le _
  have h2 : (⌊x / y⌋ : ℝ) * y ≤ x := (le_div_iff₀ hy).mp h1
  have h3 : ((⌊x / y⌋ : ℝ)) * y = y * (⌊x / y⌋ : ℝ) := by ring
  rw [h3] at h2
  linarith

/-- For a negative dividend and a positive modulus the truncating remainder
is nonpositive. -/
theorem rustRem_nonpos (x y : ℝ) (hy : 0 < y) (hx : x < 0) : rustRem x y ≤ 0 := by
  unfold rustRem truncQuot
  rw [if_neg (not_le.mpr (div_neg_of_neg_of_pos hx hy))]
  have h1 : x / y ≤ (⌈x / y⌉ : ℝ) := Int.le_ceil _
  have h2 : x ≤ (⌈x / y⌉ : ℝ) * y := (div_le_iff₀ hy).mp h1
  have h3 : ((⌈x / y⌉ : ℝ)) * y = y * (⌈x / y⌉ : ℝ) := by ring
  rw [h3] at h2
  linarith

/-- A freshly constructed camera at the origin with default settings:
yaw 0, pitch 0, velocity 1, empty actions. -/
def fpStart : FirstPerson := FirstPerson.new (0, 0, 0) FirstPersonSettings.wasd

/-- Counterexample to C1: from yaw 0 with unit sensitivities, the pointer
delta `relative_dx = 360` makes the intermediate yaw `-π/4`, and Rust's
truncating `%` returns `-π/4` itself, which is not in `[0, 2π)`. -/
theorem yaw_normalization_counterexample :
    ¬ (0 ≤ (fpStart.update_mouse 360 0).yaw
        ∧ (fpStart.update_mouse 360 0).yaw < 2 * Real.pi) := by
  have harg : fpStart.yaw - 360 * fpStart.settings.mouse_sensitivity_horizontal / 360
      * Real.pi / 4 = -(Real.pi / 4) := by
    show (0 : ℝ) - 360 * 1 / 360 * Real.pi / 4 = -(Real.pi / 4)
    ring
  have hq : -(Real.pi / 4) / (2 * Real.pi) = -(1 / 8 : ℝ) := by
    rw [div_eq_iff (ne_of_gt (by positivity : (0 : ℝ) < 2 * Real.pi))]
    ring
  have hval : rustRem (-(Real.pi / 4)) (2 * Real.pi) = -(Real.pi / 4) := by
    unfold rustRem truncQuot
    rw [hq, if_neg (by norm_num : ¬ (0 : ℝ) ≤ -(1 / 8))]
    have hc : ⌈(-(1 / 8 : ℝ))⌉ = 0 := by
      rw [Int.ceil_eq_zero_iff]
      constructor <;> norm_num
    rw [hc]
    push_cast
    ring
  have hyaw : (fpStart.update_mouse 360 0).yaw = -(Real.pi / 4) := by
    rw [update_mouse_yaw, harg, hval]
  rw [hyaw]
  intro hcontra
  have := hcontra.1
  linarith [Real.pi_pos]

/-- Claim C1 (amended): after `update_mouse` the yaw always lies in the open
interval `(-2π, 2π)`; it lies in `[0, 2π)` whenever the intermediate value
`yaw - dx_in_radians` is nonnegative, and a negative intermediate value gives
a yaw in `(-2π, 0]`, because Rust's `%` is a truncating remainder, not a
floor-mod. -/
theorem yaw_range_after_update_mouse (fp : FirstPerson)
    (relative_dx relative_dy : ℝ) :
    (-(2 * Real.pi) < (fp.update_mouse relative_dx relative_dy).yaw
      ∧ (fp.update_mouse relative_dx relative_dy).yaw < 2 * Real.pi)
    ∧ (0 ≤ fp.yaw - relative_dx * fp.settings.mouse_sensitivity_horizontal / 360
          * Real.pi / 4 →
        0 ≤ (fp.update_mouse relative_dx relative_dy).yaw
          ∧ (fp.update_mouse relative_dx relative_dy).yaw < 2 * Real.pi)
    ∧ (fp.yaw - relative_dx * fp.settings.mouse_sensitivity_horizontal / 360
          * Real.pi / 4 < 0 →
        -(2 * Real.pi) < (fp.update_mouse relative_dx relative_dy).yaw
          ∧ (fp.update_mouse relative_dx relative_dy).yaw ≤ 0) := by
  have h2pi : (0 : ℝ) < 2 * Real.pi := by positivity
  rw [update_mouse_yaw]
  refine ⟨⟨neg_lt_rustRem _ _ h2pi, rustRem_lt _ _ h2pi⟩, fun hnn => ?_, fun hneg => ?_⟩
  · exact ⟨rustRem_nonneg _ _ h2pi hnn, rustRem_lt _ _ h2pi⟩
  · exact ⟨neg_lt_rustRem _ _ h2pi, rustRem_nonpos _ _ h2pi hneg⟩

/-- Witness for the amended C1: a pointer delta of `-360` from yaw 0 keeps the
intermediate yaw nonnegative, so the new yaw is in `[0, 2π)`; a delta of `360`
makes it negative, so the new yaw lands in `(-2π, 0]`. -/
theorem yaw_range_after_update_mouse_witness :
    (0 ≤ (fpStart.update_mouse (-360) 0).yaw
      ∧ (fpStart.update_mouse (-360) 0).yaw < 2 * Real.pi)
    ∧ (-(2 * Real.pi) < (fpStart.update_mouse 360 0).yaw
      ∧ (fpStart.update_mouse 360 0).yaw ≤ 0) :=
  ⟨(yaw_range_after_update_mouse fpStart (-360) 0).2.1 (by
      show (0 : ℝ) ≤ 0 - (-360) * 1 / 360 * Real.pi / 4
      linarith [Real.pi_pos]),
   (yaw_range_after_update_mouse fpStart 360 0).2.2 (by
      show (0 : ℝ) - 360 * 1 / 360 * Real.pi / 4 < 0
      linarith [Real.pi_pos])⟩

/-- The clamp used on pitch always lands in `[-π/2, π/2]`. -/
theorem pitch_clamp_mem (x : ℝ) :
    -(Real.pi / 2) ≤ max (min x (Real.pi / 2)) (-(Real.pi / 2))
    ∧ max (min x (Real.pi / 2)) (-(Real.pi / 2)) ≤ Real.pi / 2 := by
  refine ⟨le_max_right _ _, max_le (min_le_right _ _) ?_⟩
  linarith [Real.pi_pos]

/-- Every single operation leaves pitch (or puts it) in `[-π/2, π/2]`. -/
theorem pitch_bounds_step (fp : FirstPerson)
    (h : -(Real.pi / 2) ≤ fp.pitch ∧ fp.pitch ≤ Real.pi / 2) (op : Op) :
    -(Real.pi / 2) ≤ (stepOp fp op).pitch ∧ (stepOp fp op).pitch ≤ Real.pi / 2 := by
  cases op with
  | update dt => exact h
  | updateMouse ddx ddy =>
      rw [show stepOp fp (Op.updateMouse ddx ddy) = fp.update_mouse ddx ddy from rfl,
        update_mouse_pitch]
      exact pitch_clamp_mem _
  | enable a => exact h
  | disable a => exact h

/-- The pitch bound is preserved by any operation sequence. -/
theorem pitch_bounds_run (ops : List Op) :
    ∀ fp : FirstPerson, -(Real.pi / 2) ≤ fp.pitch ∧ fp.pitch ≤ Real.pi / 2 →
      -(Real.pi / 2) ≤ (runOps fp ops).pitch ∧ (runOps fp ops).pitch ≤ Real.pi / 2 := by
  induction ops with
  | nil => intro fp h; exact h
  | cons op t ih =>
      intro fp h
      exact ih (stepOp fp op) (pitch_bounds_step fp h op)

/-- One algebraic step of the clamped accumulation. -/
theorem clamp_step_min (p d c : ℝ) (hd : 0 < d) (hlo : -c ≤ p) (hc : 0 ≤ c) (n : ℕ) :
    max (min (min (p + n * d) c + d) c) (-c) = min (p + (n + 1 : ℕ) * d) c := by
  have hnd : 0 ≤ (n : ℝ) * d := mul_nonneg (Nat.cast_nonneg n) hd.le
  have hcast : ((n + 1 : ℕ) : ℝ) * d = (n : ℝ) * d + d := by push_cast; ring
  rcases le_total (p + n * d) c with h | h
  · rw [min_eq_left h]
    have hge : -c ≤ min (p + (n : ℝ) * d + d) c := le_min (by linarith) (by linarith)
    rw [max_eq_left hge, hcast]
    ring_nf
  · rw [min_eq_right h, min_eq_right (by linarith : c ≤ c + d),
      max_eq_left (by linarith : -c ≤ c),
      min_eq_right (by rw [hcast]; linarith : c ≤ p + ((n + 1 : ℕ) : ℝ) * d)]

/-- Iterating `update_mouse` with a fixed positive pitch increment accumulates
linearly until it clamps at `π/2`, and never changes the settings. -/
theorem pitch_iterate (relative_dx relative_dy : ℝ) (fp : FirstPerson)
    (hd : 0 < relative_dy * fp.settings.mouse_sensitivity_vertical / 360 * Real.pi / 4)
    (hlo : -(Real.pi / 2) ≤ fp.pitch) (hhi : fp.pitch ≤ Real.pi / 2) (n : ℕ) :
    ((fun s => s.update_mouse relative_dx relative_dy)^[n] fp).pitch
        = min (fp.pitch
            + n * (relative_dy * fp.settings.mouse_sensitivity_vertical / 360
                * Real.pi / 4)) (Real.pi / 2)
    ∧ ((fun s => s.update_mouse relative_dx relative_dy)^[n] fp).settings
        = fp.settings := by
  induction n with
  | zero => simp [min_eq_left hhi]
  | succ n ih =>
      obtain ⟨hp, hs⟩ := ih
      rw [Function.iterate_succ_apply']
      refine ⟨?_, by rw [update_mouse_settings, hs]⟩
      rw [update_mouse_pitch, hs, hp]
      exact clamp_step_min fp.pitch
        (relative_dy * fp.settings.mouse_sensitivity_vertical / 360 * Real.pi / 4)
        (Real.pi / 2) hd hlo (by linarith [Real.pi_pos]) n

/-- Claim C4: (1) for every state reachable from construction by any sequence
of `update`, `update_mouse`, `enable_actions`, `disable_action` calls, pitch
lies in `[-π/2, π/2]`; (2) from any state satisfying that bound, repeated
`update_mouse` calls with a positive scaled vertical delta drive pitch to
exactly `π/2` and leave it there. -/
theorem pitch_clamped_and_saturates :
    (∀ (p : ℝ × ℝ × ℝ) (stg : FirstPersonSettings) (ops : List Op),
        -(Real.pi / 2) ≤ (runOps (FirstPerson.new p stg) ops).pitch
        ∧ (runOps (FirstPerson.new p stg) ops).pitch ≤ Real.pi / 2)
    ∧ (∀ (fp : FirstPerson) (relative_dx relative_dy : ℝ),
        0 < relative_dy * fp.settings.mouse_sensitivity_vertical →
        -(Real.pi / 2) ≤ fp.pitch → fp.pitch ≤ Real.pi / 2 →
        ∃ N : ℕ, ∀ n : ℕ, N ≤ n →
          ((fun s => s.update_mouse relative_dx relative_dy)^[n] fp).pitch
            = Real.pi / 2) := by
  constructor
  · intro p stg ops
    apply pitch_bounds_run
    constructor
    · show -(Real.pi / 2) ≤ (0 : ℝ)
      linarith [Real.pi_pos]
    · show (0 : ℝ) ≤ Real.pi / 2
      linarith [Real.pi_pos]
  · intro fp relative_dx relative_dy hdy hlo hhi
    have hd : 0 < relative_dy * fp.settings.mouse_sensitivity_vertical / 360
        * Real.pi / 4 := by
      have h1 : 0 < relative_dy * fp.settings.mouse_sensitivity_vertical / 360 :=
        div_pos hdy (by norm_num)
      have h2 := mul_pos h1 Real.pi_pos
      linarith
    refine ⟨(⌈(Real.pi / 2 - fp.pitch)
        / (relative_dy * fp.settings.mouse_sensitivity_vertical / 360
            * Real.pi / 4)⌉).toNat, ?_⟩
    intro n hn
    rw [(pitch_iterate relative_dx relative_dy fp hd hlo hhi n).1]
    apply min_eq_right
    have h2 : (Real.pi / 2 - fp.pitch)
        / (relative_dy * fp.settings.mouse_sensitivity_vertical / 360
            * Real.pi / 4) ≤ (n : ℝ) := by
      calc (Real.pi / 2 - fp.pitch)
            / (relative_dy * fp.settings.mouse_sensitivity_vertical / 360
                * Real.pi / 4)
          ≤ ((⌈(Real.pi / 2 - fp.pitch)
              / (relative_dy * fp.settings.mouse_sensitivity_vertical / 360
                  * Real.pi / 4)⌉ : ℤ) : ℝ) := Int.le_ceil _
        _ ≤ (((⌈(Real.pi / 2 - fp.pitch)
              / (relative_dy * fp.settings.mouse_sensitivity_vertical / 360
                  * Real.pi / 4)⌉).toNat : ℕ) : ℝ) := by
            exact_mod_cast Int.self_le_toNat _
        _ ≤ (n : ℝ) := by exact_mod_cast hn
    rw [div_le_iff₀ hd] at h2
    linarith

/-- Witness for C4: from a fresh camera, repeatedly feeding the positive
pointer delta `relative_dy = 360` saturates pitch at exactly `π/2`. -/
theorem pitch_clamped_and_saturates_witness :
    ∃ N : ℕ, ∀ n : ℕ, N ≤ n →
      ((fun s => s.update_mouse 0 360)^[n] fpStart).pitch = Real.pi / 2 :=
  pitch_clamped_and_saturates.2 fpStart 0 360
    (by show (0 : ℝ) < 360 * 1; norm_num)
    (by show -(Real.pi / 2) ≤ (0 : ℝ); linarith [Real.pi_pos])
    (by show (0 : ℝ) ≤ Real.pi / 2; linarith [Real.pi_pos])

/-- Pure bitmask fact: enabling flag A, then flag B, then disabling A leaves
exactly B, for distinct single flags. -/
theorem mask_roundtrip :
    ∀ a ∈ Actions.flagList, ∀ b ∈ Actions.flagList, a ≠ b →
      ((Actions.emptyMask ||| a) ||| b) &&& Actions.negMask a = b := by decide

/-- Pure bitmask fact: AND-NOT with an inactive flag is the identity on any
valid (7-bit) mask. -/
theorem mask_disable_inactive :
    ∀ m : Nat, m < 128 → ∀ f ∈ Actions.flagList,
      Actions.contains m f = false → m &&& Actions.negMask f = m := by decide

/-- Claim C9: starting from an empty actions bitmask, enabling distinct single
flags A then B and disabling A leaves exactly B active; and `disable_action`
of an inactive flag leaves the (valid) bitmask unchanged. -/
theorem actions_roundtrip_idempotent :
    (∀ a ∈ Actions.flagList, ∀ b ∈ Actions.flagList, a ≠ b →
      ∀ fp : FirstPerson, fp.actions = Actions.emptyMask →
        (((fp.enable_actions a).enable_actions b).disable_action a).actions = b)
    ∧ (∀ fp : FirstPerson, ∀ f ∈ Actions.flagList,
        fp.actions &&& Actions.ALL = fp.actions →
        Actions.contains fp.actions f = false →
        (fp.disable_action f).actions = fp.actions) := by
  constructor
  · intro a ha b hb hne fp hfp
    show ((fp.actions ||| a) ||| b) &&& Actions.negMask a = b
    rw [hfp]
    exact mask_roundtrip a ha b hb hne
  · intro fp f hf hvalid hinactive
    show fp.actions &&& Actions.negMask f = fp.actions
    have hle : fp.actions &&& Actions.ALL ≤ Actions.ALL := Nat.and_le_right
    rw [hvalid] at hle
    rw [show Actions.ALL = 127 from rfl] at hle
    exact mask_disable_inactive fp.actions (by omega) f hf hinactive

/-- Witness for C9: enable forward then strafe-left, disable forward, exactly
strafe-left remains; and disabling the inactive fly-up flag changes nothing. -/
theorem actions_roundtrip_idempotent_witness :
    (((fpStart.enable_actions Actions.MOVE_FORWARD).enable_actions
        Actions.STRAFE_LEFT).disable_action Actions.MOVE_FORWARD).actions
      = Actions.STRAFE_LEFT
    ∧ (fpForward.disable_action Actions.FLY_UP).actions = fpForward.actions :=
  ⟨actions_roundtrip_idempotent.1 Actions.MOVE_FORWARD (by decide)
      Actions.STRAFE_LEFT (by decide) (by decide) fpStart rfl,
   actions_roundtrip_idempotent.2 fpForward Actions.FLY_UP (by decide)
      (by decide) (by decide)⟩

/-- Two masks that agree outside the MOVE_FASTER bit test identically on any
flag contained in the other bits. -/
theorem contains_eq_of_low_bits (a1 a2 f : Nat)
    (hf : f &&& (Actions.ALL ^^^ Actions.MOVE_FASTER) = f)
    (ha : a1 &&& (Actions.ALL ^^^ Actions.MOVE_FASTER)
        = a2 &&& (Actions.ALL ^^^ Actions.MOVE_FASTER)) :
    Actions.contains a1 f = Actions.contains a2 f := by
  unfold Actions.contains
  have key : a1 &&& f = a2 &&& f := by
    calc a1 &&& f
        = a1 &&& (f &&& (Actions.ALL ^^^ Actions.MOVE_FASTER)) := by rw [hf]
      _ = (a1 &&& (Actions.ALL ^^^ Actions.MOVE_FASTER)) &&& f := by
            rw [Nat.and_comm f (Actions.ALL ^^^ Actions.MOVE_FASTER), ← Nat.and_assoc]
      _ = (a2 &&& (Actions.ALL ^^^ Actions.MOVE_FASTER)) &&& f := by rw [ha]
      _ = a2 &&& ((Actions.ALL ^^^ Actions.MOVE_FASTER) &&& f) := Nat.and_assoc _ _ _
      _ = a2 &&& (f &&& (Actions.ALL ^^^ Actions.MOVE_FASTER)) := by
            rw [Nat.and_comm (Actions.ALL ^^^ Actions.MOVE_FASTER) f]
      _ = a2 &&& f := by rw [hf]
  rw [key]

/-- Claim C10: two states identical except in the MOVE_FASTER bit of the
actions bitmask have the same `movement_direction`, the same `camera(dt)`
pose, and the same position after `update(dt)`, for every `dt`. -/
theorem move_faster_irrelevant (fp1 fp2 : FirstPerson)
    (hs : fp1.settings = fp2.settings) (hy : fp1.yaw = fp2.yaw)
    (hp : fp1.pitch = fp2.pitch) (hpos : fp1.position = fp2.position)
    (hv : fp1.velocity = fp2.velocity)
    (ha : fp1.actions &&& (Actions.ALL ^^^ Actions.MOVE_FASTER)
        = fp2.actions &&& (Actions.ALL ^^^ Actions.MOVE_FASTER)) :
    fp1.movement_direction = fp2.movement_direction
    ∧ ∀ dt : ℝ, fp1.camera dt = fp2.camera dt
      ∧ (fp1.update dt).position = (fp2.update dt).position := by
  have hmd : fp1.movement_direction = fp2.movement_direction := by
    unfold FirstPerson.movement_direction
    rw [contains_eq_of_low_bits fp1.actions fp2.actions Actions.STRAFE_LEFT
        (by decide) ha,
      contains_eq_of_low_bits fp1.actions fp2.actions Actions.STRAFE_RIGHT
        (by decide) ha,
      contains_eq_of_low_bits fp1.actions fp2.actions Actions.FLY_UP
        (by decide) ha,
      contains_eq_of_low_bits fp1.actions fp2.actions Actions.FLY_DOWN
        (by decide) ha,
      contains_eq_of_low_bits fp1.actions fp2.actions Actions.MOVE_FORWARD
        (by decide) ha,
      contains_eq_of_low_bits fp1.actions fp2.actions Actions.MOVE_BACKWARD
        (by decide) ha]
  refine ⟨hmd, fun dt => ?_⟩
  have hcam : fp1.camera dt = fp2.camera dt := by
    simp only [FirstPerson.camera]
    rw [hmd, hy, hp, hpos, hv, hs]
  exact ⟨hcam, by
    show (fp1.camera dt).position = (fp2.camera dt).position
    rw [hcam]⟩

/-- The forward-moving camera with the speed-boost flag additionally set. -/
def fpForwardFast : FirstPerson :=
  { settings := FirstPersonSettings.wasd
    yaw := 0
    pitch := 0
    position := (0, 0, 0)
    velocity := 1
    actions := Actions.MOVE_FORWARD ||| Actions.MOVE_FASTER }

/-- Witness for C10: toggling MOVE_FASTER on the forward-moving camera changes
neither the movement direction, nor the pose at `dt = 1`, nor the position
after `update(1)`. -/
theorem move_faster_irrelevant_witness :
    fpForward.movement_direction = fpForwardFast.movement_direction
    ∧ fpForward.camera 1 = fpForwardFast.camera 1
    ∧ (fpForward.update 1).position = (fpForwardFast.update 1).position :=
  have h := move_faster_irrelevant fpForward fpForwardFast rfl rfl rfl rfl rfl
    (by decide)
  ⟨h.1, (h.2 1).1, (h.2 1).2⟩
